import Mathlib

/-!
Verification of the macos-notifications coordination layer
(`manager.py`, `listener_process.py`, `notification_sender.py`):
a shallow embedding of the registry, manager, drain-thread message handling,
listener-process message forwarding and backend activation dispatch,
with theorems settling the specified properties.
-/

namespace MacNotifications

/-- `NotificationConfig` value object (declared in `notification_config.py`,
which only the manager consumes here): the identifier, diagnostic title and
the two optional user callbacks.  Callbacks are represented by opaque `Nat`
identities so that invocations can be recorded and compared. -/
structure NotificationConfig where
  uid : String
  title : String
  action_callback : Option Nat
  reply_callback : Option Nat
deriving DecidableEq, Repr

/-- The serialized display request (`to_json_notification`) as it travels over
the channel; only the identifier matters to the coordination layer. -/
structure JSONNotificationConfig where
  uid : String
deriving DecidableEq, Repr

/-- Serialization performed by `create_notification` before sending. -/
def to_json_notification (c : NotificationConfig) : JSONNotificationConfig :=
  ⟨c.uid⟩

/-- A recorded callback invocation performed by the drain thread:
either an action callback firing, or a reply callback firing with the
delivered reply text. -/
inductive Invocation where
  | action (cb : Nat)
  | reply (cb : Nat) (text : String)
deriving DecidableEq, Repr

/-- The shared registry: `_FIFO_LIST` (insertion order of identifiers) and
`_NOTIFICATION_MAP` (identifier to pending configuration), modelled as a list
and an association list with unique keys, exactly the two module-level
structures of `manager.py`. -/
structure RegistryState where
  fifo_list : List String
  notification_map : List (String × NotificationConfig)
deriving DecidableEq, Repr

/-- `uid in _NOTIFICATION_MAP`. -/
def mapContains (m : List (String × NotificationConfig)) (k : String) : Bool :=
  m.any (fun p => p.1 = k)

/-- Dictionary lookup `_NOTIFICATION_MAP[k]`. -/
def mapLookup (m : List (String × NotificationConfig)) (k : String) :
    Option NotificationConfig :=
  (m.find? (fun p => p.1 = k)).map (fun p => p.2)

/-- `_NOTIFICATION_MAP.pop(k)` (the removal part): drops the entry for `k`. -/
def mapErase (m : List (String × NotificationConfig)) (k : String) :
    List (String × NotificationConfig) :=
  m.filter (fun p => p.1 ≠ k)

/-- `_NOTIFICATION_MAP[k] = v`: Python-dict assignment — replaces the value in
place when the key exists, appends otherwise. -/
def mapInsert (m : List (String × NotificationConfig)) (k : String)
    (v : NotificationConfig) : List (String × NotificationConfig) :=
  if mapContains m k then m.map (fun p => if p.1 = k then (k, v) else p)
  else m ++ [(k, v)]

/-- `_MAX_NUMBER_OF_CALLBACKS_TO_TRACK` from `manager.py`. -/
def _MAX_NUMBER_OF_CALLBACKS_TO_TRACK : Nat := 1000

/-- `clear_notification_from_existence(notification_id)`: removes the map
entry if present and the first FIFO occurrence if present. -/
def clear_notification_from_existence (st : RegistryState) (id : String) :
    RegistryState :=
  let m := if mapContains st.notification_map id
           then mapErase st.notification_map id else st.notification_map
  let f := if id ∈ st.fifo_list then st.fifo_list.erase id else st.fifo_list
  ⟨f, m⟩

/-- The loop of `clear_old_notifications`, structured with explicit fuel so
that it is structurally recursive: each iteration pops the FIFO head and
clears it, so the FIFO shrinks by at least one element per iteration and
`fuel = len(_FIFO_LIST)` iterations always suffice to reach the loop's exit
condition `len(_FIFO_LIST) ≤ maxN` (the fuel never runs out first). -/
def clear_old_loop (fuel : Nat) (maxN : Nat) (st : RegistryState) :
    RegistryState :=
  match fuel with
  | 0 => st
  | fuel + 1 =>
    if maxN < st.fifo_list.length then
      match st.fifo_list with
      | [] => st
      | x :: rest =>
        clear_old_loop fuel maxN
          (clear_notification_from_existence ⟨rest, st.notification_map⟩ x)
    else st

/-- `clear_old_notifications` generalized over the capacity constant:
`while len(_FIFO_LIST) > maxN: clear_notification_from_existence(_FIFO_LIST.pop(0))`. -/
def clear_old_notifications_mx (maxN : Nat) (st : RegistryState) :
    RegistryState :=
  clear_old_loop st.fifo_list.length maxN st

/-- `NotificationManager.clear_old_notifications` with the source constant. -/
def clear_old_notifications (st : RegistryState) : RegistryState :=
  clear_old_notifications_mx _MAX_NUMBER_OF_CALLBACKS_TO_TRACK st

/-- `NotificationManager.get_active_running_notifications`. -/
def get_active_running_notifications (st : RegistryState) : Nat :=
  st.notification_map.length

/-- A message sent by the caller over the channel (caller → listener):
the serialized display request, or `JSONCancelRequest(uid)`, or anything
else (the wire carries arbitrary pickled objects). -/
inductive ChannelMessage where
  | displayRequest (config : JSONNotificationConfig)
  | cancelRequest (uid : String)
  | other (payload : String)
deriving DecidableEq, Repr

/-- The state of the `NotificationManager` singleton: whether each lifecycle
field (`parent_pipe_end`, `child_pipe_end`, `_callback_listener_process`,
`_callback_executor_thread`) is set, plus the module-level registry. -/
structure ManagerState where
  parent_pipe_end : Bool
  child_pipe_end : Bool
  callback_listener_process : Bool
  callback_executor_thread : Bool
  registry : RegistryState
deriving DecidableEq, Repr

/-- The manager state right after `__init__`: no pipes, no listener process,
no executor thread, and the module-level registry structures empty. -/
def initialManagerState : ManagerState :=
  ⟨false, false, false, false, ⟨[], []⟩⟩

/-- `NotificationManager.create_notification(notification_config)`
generalized over the capacity constant: serializes the config, lazily starts
the pipe pair, listener process and executor thread, sends the display
request, then unconditionally appends the uid to `_FIFO_LIST`, stores the
config in `_NOTIFICATION_MAP`, and runs `clear_old_notifications`.  Returns
the new state and the messages sent over the channel (the Python method
returns `None`). -/
def create_notification_mx (maxN : Nat) (st : ManagerState)
    (config : NotificationConfig) : ManagerState × List ChannelMessage :=
  let json_config := to_json_notification config
  let st1 :=
    if ¬ st.callback_listener_process then
      { st with parent_pipe_end := true, child_pipe_end := true,
                callback_listener_process := true,
                callback_executor_thread := true }
    else st
  let reg1 : RegistryState :=
    ⟨st1.registry.fifo_list ++ [config.uid],
     mapInsert st1.registry.notification_map config.uid config⟩
  let reg2 := clear_old_notifications_mx maxN reg1
  ({ st1 with registry := reg2 }, [ChannelMessage.displayRequest json_config])

/-- `NotificationManager.create_notification` with the source constant
`_MAX_NUMBER_OF_CALLBACKS_TO_TRACK`. -/
def create_notification (st : ManagerState) (config : NotificationConfig) :
    ManagerState × List ChannelMessage :=
  create_notification_mx _MAX_NUMBER_OF_CALLBACKS_TO_TRACK st config

/-- The four teardown operations `cleanup` can perform, each guarded in the
source by an `if` on the corresponding field. -/
inductive TeardownAction where
  | closeParentPipe
  | closeChildPipe
  | killListenerProcess
  | joinExecutorThread
deriving DecidableEq, Repr

/-- `NotificationManager.cleanup()`: closes both pipe ends if set, kills the
listener process if set, joins the executor thread if set (each action only
happens when its field is set, and the field is reset to `None` afterwards),
and clears both registry structures.  Returns the new state together with
the teardown actions actually performed. -/
def cleanup (st : ManagerState) : ManagerState × List TeardownAction :=
  (⟨false, false, false, false, ⟨[], []⟩⟩,
   (if st.parent_pipe_end then [TeardownAction.closeParentPipe] else []) ++
   (if st.child_pipe_end then [TeardownAction.closeChildPipe] else []) ++
   (if st.callback_listener_process then [TeardownAction.killListenerProcess]
    else []) ++
   (if st.callback_executor_thread then [TeardownAction.joinExecutorThread]
    else []))

/-- The outcome of `CallbackExecutorThread.drain_queue` handling one received
message `(notification_uid, event_id, reply_text)`: either the new registry
state with the callback invocations performed, or a raised `ValueError`
(its message, paired with the registry state at the moment of the raise). -/
def drain_handle_message (st : RegistryState) (notification_uid : String)
    (event_id : String) (reply_text : String) :
    Except (String × RegistryState) (RegistryState × List Invocation) :=
  match mapLookup st.notification_map notification_uid with
  | none => Except.ok (st, [])
  | some notification_config =>
    if event_id = "action_button_clicked" then
      let st1 : RegistryState :=
        ⟨st.fifo_list, mapErase st.notification_map notification_uid⟩
      match notification_config.action_callback with
      | none => Except.error
          ("Notifications action button pressed without callback", st1)
      | some cb => Except.ok
          (clear_notification_from_existence st1 notification_uid,
           [Invocation.action cb])
    else if event_id = "reply_button_clicked" then
      let st1 : RegistryState :=
        ⟨st.fifo_list, mapErase st.notification_map notification_uid⟩
      match notification_config.reply_callback with
      | none => Except.error
          ("Notifications reply button pressed without callback", st1)
      | some cb => Except.ok
          (clear_notification_from_existence st1 notification_uid,
           [Invocation.reply cb reply_text])
    else Except.error ("Unknown event_id", st)

/-- Whether a drain-thread handling outcome is a raised `ValueError`. -/
def isErrorResult :
    Except (String × RegistryState) (RegistryState × List Invocation) → Bool
  | Except.error _ => true
  | Except.ok _ => false

/-- An operation the listener process performs against the notification
backend (`notification_sender`). -/
inductive BackendOp where
  | send (config : JSONNotificationConfig)
  | cancel (uid : String)
deriving DecidableEq, Repr

/-- Discriminator for `isinstance(result, JSONNotificationConfig)`. -/
def isJSONNotificationConfig : ChannelMessage → Bool
  | ChannelMessage.displayRequest _ => true
  | _ => false

/-- Discriminator for `isinstance(result, JSONCancelRequest)`. -/
def isJSONCancelRequest : ChannelMessage → Bool
  | ChannelMessage.cancelRequest _ => true
  | _ => false

/-- One iteration of `NotificationProcess.poll`'s loop body on a received
message: two independent `isinstance` checks; a display request triggers
`notification_sender.send_notification`, a cancel request triggers
`notification_sender.cancel_notification`, anything else triggers nothing. -/
def notificationProcess_handle_message (msg : ChannelMessage) :
    List BackendOp :=
  (if isJSONNotificationConfig msg then
     match msg with
     | ChannelMessage.displayRequest c => [BackendOp.send c]
     | _ => []
   else []) ++
  (if isJSONCancelRequest msg then
     match msg with
     | ChannelMessage.cancelRequest uid => [BackendOp.cancel uid]
     | _ => []
   else [])

/-- `NotificationProcess.poll` over the whole inbound stream: every message is
handled in order and the loop only ends at end-of-stream (`EOFError`), which
is swallowed, so the backend operations are the concatenation of each
message's operations. -/
def notificationProcess_poll (msgs : List ChannelMessage) : List BackendOp :=
  match msgs with
  | [] => []
  | m :: rest =>
    notificationProcess_handle_message m ++ notificationProcess_poll rest

/-- `userNotificationCenter_didActivateNotification_` from
`notification_sender.py`: given the notification's identifier, the reply
response string and the native `activationType`, returns the activation
tuples passed to `handle_activations` (the listener's `handle_activation`).
Type 1 (click on the notification body) falls into an explicit `pass`;
type 2 reports an action-button click; type 3 reports a reply-button click
with the response text; every other type matches no branch. -/
def userNotificationCenter_didActivateNotification (identifier : String)
    (response : String) (activation_type : Nat) :
    List (String × String × String) :=
  if activation_type = 1 then []
  else if activation_type = 2 then [(identifier, "action_button_clicked", "")]
  else if activation_type = 3 then
    [(identifier, "reply_button_clicked", response)]
  else []

/-- Modelled from the spec: the cancel handle returned to the caller by the
client layer, which is not under `src/` (no code under `src/` constructs or
sends a `JSONCancelRequest`; only `NotificationProcess.poll` consumes one).
Per the spec it captures the notification's identifier and the channel
sender. -/
structure CancelHandle where
  uid : String
deriving DecidableEq, Repr

/-- Modelled from the spec: the client-layer `create_notification` wrapper,
not under `src/`: it submits the config through
`NotificationManager.create_notification` and returns a handle whose
`cancel()` targets this notification's identifier. -/
def client_create_notification (st : ManagerState)
    (config : NotificationConfig) :
    ManagerState × List ChannelMessage × CancelHandle :=
  let (st1, msgs) := create_notification st config
  (st1, msgs, ⟨config.uid⟩)

/-- Folds a sequence of `create_notification` calls, starting from the
freshly initialized manager, keeping only the resulting manager state. -/
def run_create_notifications (configs : List NotificationConfig) :
    ManagerState :=
  configs.foldl (fun s c => (create_notification s c).1) initialManagerState

/-- The lock-step invariant of the registry: every identifier in the FIFO
ordering has a map entry and every map entry's identifier appears in the
FIFO ordering. -/
def LockStep (st : RegistryState) : Prop :=
  (∀ id ∈ st.fifo_list, mapContains st.notification_map id = true) ∧
  (∀ p ∈ st.notification_map, p.1 ∈ st.fifo_list)

instance (st : RegistryState) : Decidable (LockStep st) := by
  unfold LockStep; infer_instance

/-- Well-formedness of the registry: no duplicate identifiers in the FIFO
ordering, no duplicate keys in the map, and the lock-step invariant. -/
def RegistryWF (st : RegistryState) : Prop :=
  st.fifo_list.Nodup ∧ (st.notification_map.map Prod.fst).Nodup ∧ LockStep st

instance (st : RegistryState) : Decidable (RegistryWF st) := by
  unfold RegistryWF; infer_instance

/-- The part of well-formedness that holds with no freshness assumption on
inserted identifiers: map keys are distinct and each key appears in the
FIFO ordering. -/
def MapWF (st : RegistryState) : Prop :=
  (st.notification_map.map Prod.fst).Nodup ∧
  ∀ p ∈ st.notification_map, p.1 ∈ st.fifo_list

instance (st : RegistryState) : Decidable (MapWF st) := by
  unfold MapWF; infer_instance

/-- Modelled from the spec: `CancelHandle.cancel()`, not under `src/`:
sends a `JSONCancelRequest` for the captured identifier over the channel and
removes the identifier's entry from the registry; when the channel has been
closed it does nothing and raises nothing (returns the state unchanged with
no message sent). -/
def cancelHandle_cancel (h : CancelHandle) (st : ManagerState) :
    ManagerState × List ChannelMessage :=
  if st.parent_pipe_end then
    ({ st with registry := clear_notification_from_existence st.registry h.uid },
     [ChannelMessage.cancelRequest h.uid])
  else (st, [])

/-! ### Basic lemmas about the map operations -/

theorem mapContains_true_iff (m : List (String × NotificationConfig))
    (k : String) : mapContains m k = true ↔ k ∈ m.map Prod.fst := by
  simp only [mapContains, List.any_eq_true, List.mem_map, decide_eq_true_eq]

theorem mapContains_false_iff (m : List (String × NotificationConfig))
    (k : String) : mapContains m k = false ↔ k ∉ m.map Prod.fst := by
  rw [← Bool.not_eq_true, not_iff_not]
  exact mapContains_true_iff m k

theorem mapLookup_eq_none_iff (m : List (String × NotificationConfig))
    (k : String) : mapLookup m k = none ↔ mapContains m k = false := by
  simp only [mapLookup, Option.map_eq_none', List.find?_eq_none,
    decide_eq_true_eq, mapContains_false_iff, List.mem_map]
  constructor
  · rintro h ⟨p, hp, rfl⟩; exact h p hp rfl
  · intro h p hp hk; exact h ⟨p, hp, hk⟩

theorem mapLookup_some_mem {m : List (String × NotificationConfig)}
    {k : String} {c : NotificationConfig} (h : mapLookup m k = some c) :
    (k, c) ∈ m := by
  unfold mapLookup at h
  cases hf : m.find? (fun p => p.1 = k) with
  | none => rw [hf] at h; simp at h
  | some p =>
    rw [hf] at h
    simp only [Option.map_some', Option.some.injEq] at h
    have hp := List.find?_some hf
    have hm : p ∈ m := List.mem_of_find?_eq_some hf
    simp only [decide_eq_true_eq] at hp
    obtain ⟨a, b⟩ := p
    subst hp; subst h; exact hm

theorem mapContains_of_lookup_some {m : List (String × NotificationConfig)}
    {k : String} {c : NotificationConfig} (h : mapLookup m k = some c) :
    mapContains m k = true := by
  rw [mapContains_true_iff]
  exact List.mem_map.mpr ⟨(k, c), mapLookup_some_mem h, rfl⟩

theorem mem_mapErase {m : List (String × NotificationConfig)} {k : String}
    {p : String × NotificationConfig} :
    p ∈ mapErase m k ↔ p ∈ m ∧ p.1 ≠ k := by
  simp [mapErase, List.mem_filter]

theorem mapContains_mapErase_self (m : List (String × NotificationConfig))
    (k : String) : mapContains (mapErase m k) k = false := by
  rw [mapContains_false_iff]
  intro hk
  obtain ⟨p, hp, hk⟩ := List.mem_map.mp hk
  exact (mem_mapErase.mp hp).2 hk

theorem mapContains_mapErase_true {m : List (String × NotificationConfig)}
    {k k' : String} (hne : k' ≠ k) (h : mapContains m k' = true) :
    mapContains (mapErase m k) k' = true := by
  rw [mapContains_true_iff] at h ⊢
  obtain ⟨p, hp, hk⟩ := List.mem_map.mp h
  exact List.mem_map.mpr ⟨p, mem_mapErase.mpr ⟨hp, hk ▸ hne⟩, hk⟩

theorem mapErase_keys_nodup {m : List (String × NotificationConfig)}
    {k : String} (h : (m.map Prod.fst).Nodup) :
    ((mapErase m k).map Prod.fst).Nodup :=
  h.sublist (List.Sublist.map Prod.fst (List.filter_sublist m))

theorem mapInsert_keys_of_contains {m : List (String × NotificationConfig)}
    {k : String} (v : NotificationConfig) (h : mapContains m k = true) :
    (mapInsert m k v).map Prod.fst = m.map Prod.fst := by
  simp only [mapInsert, h, if_true]
  rw [List.map_map]
  apply List.map_congr_left
  intro p _
  by_cases hp : p.1 = k <;> simp [hp]

theorem mapInsert_keys_of_not_contains {m : List (String × NotificationConfig)}
    {k : String} (v : NotificationConfig) (h : mapContains m k = false) :
    (mapInsert m k v).map Prod.fst = m.map Prod.fst ++ [k] := by
  simp only [mapInsert, h]
  rw [if_neg (by simp), List.map_append]
  rfl

theorem mapContains_mapInsert_self (m : List (String × NotificationConfig))
    (k : String) (v : NotificationConfig) :
    mapContains (mapInsert m k v) k = true := by
  rw [mapContains_true_iff]
  cases h : mapContains m k with
  | true => rw [mapInsert_keys_of_contains v h]
            exact (mapContains_true_iff m k).mp h
  | false => rw [mapInsert_keys_of_not_contains v h]; simp

theorem mapContains_mapInsert_ne {m : List (String × NotificationConfig)}
    {k k' : String} (v : NotificationConfig) (hne : k' ≠ k) :
    mapContains (mapInsert m k v) k' = mapContains m k' := by
  cases h : mapContains m k with
  | true =>
    cases hc : mapContains m k' with
    | true =>
      rw [mapContains_true_iff, mapInsert_keys_of_contains v h]
      exact (mapContains_true_iff m k').mp hc
    | false =>
      rw [mapContains_false_iff, mapInsert_keys_of_contains v h]
      exact (mapContains_false_iff m k').mp hc
  | false =>
    cases hc : mapContains m k' with
    | true =>
      rw [mapContains_true_iff, mapInsert_keys_of_not_contains v h]
      rw [List.mem_append]
      exact Or.inl ((mapContains_true_iff m k').mp hc)
    | false =>
      rw [mapContains_false_iff, mapInsert_keys_of_not_contains v h]
      rw [List.mem_append]
      rintro (hk | hk)
      · exact (mapContains_false_iff m k').mp hc hk
      · simp at hk; exact hne hk

/-! ### Preservation of the registry invariants -/

theorem clear_fifo_length_le (st : RegistryState) (id : String) :
    (clear_notification_from_existence st id).fifo_list.length ≤
      st.fifo_list.length := by
  unfold clear_notification_from_existence
  by_cases h : id ∈ st.fifo_list
  · simp only [h, if_true]
    exact (List.erase_sublist id st.fifo_list).length_le
  · simp [h]

theorem RegistryWF_erase_both {f : List String}
    {m : List (String × NotificationConfig)} {uid : String}
    (hwf : RegistryWF ⟨f, m⟩) :
    RegistryWF ⟨f.erase uid, mapErase m uid⟩ := by
  obtain ⟨hnd, hknd, hls1, hls2⟩ := hwf
  refine ⟨hnd.erase uid, mapErase_keys_nodup hknd, ?_, ?_⟩
  · intro id hid
    have hmem : id ∈ f := (List.erase_sublist uid f).subset hid
    have hne : id ≠ uid := by
      intro h; subst h; exact hnd.not_mem_erase hid
    exact mapContains_mapErase_true hne (hls1 id hmem)
  · intro p hp
    obtain ⟨hpm, hpne⟩ := mem_mapErase.mp hp
    exact (List.mem_erase_of_ne hpne).mpr (hls2 p hpm)

theorem RegistryWF_clear {st : RegistryState} (uid : String)
    (hwf : RegistryWF st) :
    RegistryWF (clear_notification_from_existence st uid) := by
  obtain ⟨f, m⟩ := st
  unfold clear_notification_from_existence
  by_cases hf : uid ∈ f
  · have hc : mapContains m uid = true := hwf.2.2.1 uid hf
    simp only [hf, hc, if_true]
    exact RegistryWF_erase_both hwf
  · have hc : mapContains m uid = false := by
      cases h : mapContains m uid with
      | false => rfl
      | true =>
        obtain ⟨p, hp, hpk⟩ := List.mem_map.mp ((mapContains_true_iff m uid).mp h)
        exact absurd (hpk ▸ hwf.2.2.2 p hp) hf
    rw [if_neg (by simp [hc]), if_neg hf]
    exact hwf

theorem RegistryWF_clear_old_step {x : String} {rest : List String}
    {m : List (String × NotificationConfig)}
    (hwf : RegistryWF ⟨x :: rest, m⟩) :
    RegistryWF (clear_notification_from_existence ⟨rest, m⟩ x) := by
  obtain ⟨hnd, hknd, hls1, hls2⟩ := hwf
  have hxrest : x ∉ rest := (List.nodup_cons.mp hnd).1
  have hc : mapContains m x = true := hls1 x (List.mem_cons_self x rest)
  unfold clear_notification_from_existence
  rw [if_pos hc, if_neg hxrest]
  refine ⟨(List.nodup_cons.mp hnd).2, mapErase_keys_nodup hknd, ?_, ?_⟩
  · intro id hid
    have hne : id ≠ x := fun h => hxrest (h ▸ hid)
    exact mapContains_mapErase_true hne (hls1 id (List.mem_cons_of_mem x hid))
  · intro p hp
    obtain ⟨hpm, hpne⟩ := mem_mapErase.mp hp
    rcases List.mem_cons.mp (hls2 p hpm) with h | h
    · exact absurd h hpne
    · exact h

theorem RegistryWF_clear_old_loop (fuel maxN : Nat) (st : RegistryState)
    (hwf : RegistryWF st) : RegistryWF (clear_old_loop fuel maxN st) := by
  induction fuel generalizing st with
  | zero => exact hwf
  | succ fuel ih =>
    unfold clear_old_loop
    by_cases h : maxN < st.fifo_list.length
    · simp only [h, if_true]
      cases hm : st.fifo_list with
      | nil => exact hwf
      | cons x rest =>
        apply ih
        apply RegistryWF_clear_old_step
        have : st = ⟨x :: rest, st.notification_map⟩ := by
          cases st; simp_all
        rw [← this]
        exact hwf
    · simp only [h, if_false]
      exact hwf

theorem clear_old_loop_length_le (fuel maxN : Nat) (st : RegistryState)
    (hfuel : st.fifo_list.length ≤ fuel) :
    (clear_old_loop fuel maxN st).fifo_list.length ≤ maxN := by
  induction fuel generalizing st with
  | zero =>
    have h0 : st.fifo_list.length = 0 := Nat.le_zero.mp hfuel
    simp [clear_old_loop, h0]
  | succ fuel ih =>
    unfold clear_old_loop
    by_cases h : maxN < st.fifo_list.length
    · simp only [h, if_true]
      cases hm : st.fifo_list with
      | nil => rw [hm] at h; simp at h
      | cons x rest =>
        apply ih
        have h1 : (clear_notification_from_existence
            ⟨rest, st.notification_map⟩ x).fifo_list.length ≤ rest.length :=
          clear_fifo_length_le ⟨rest, st.notification_map⟩ x
        have h2 : st.fifo_list.length = rest.length + 1 := by rw [hm]; rfl
        omega
    · simp only [h, if_false]
      omega

theorem clear_old_loop_of_le (fuel maxN : Nat) (st : RegistryState)
    (h : ¬ maxN < st.fifo_list.length) :
    clear_old_loop fuel maxN st = st := by
  cases fuel with
  | zero => rfl
  | succ fuel => unfold clear_old_loop; simp [h]

/-! ### The capacity bound -/

theorem MapWF_insert {f : List String}
    {m : List (String × NotificationConfig)} (u : String)
    (c : NotificationConfig) (hwf : MapWF ⟨f, m⟩) :
    MapWF ⟨f ++ [u], mapInsert m u c⟩ := by
  obtain ⟨hknd, hmem⟩ := hwf
  cases hc : mapContains m u with
  | true =>
    refine ⟨by rw [mapInsert_keys_of_contains c hc]; exact hknd, ?_⟩
    intro p hp
    simp only [mapInsert, hc, if_true, List.mem_map] at hp
    obtain ⟨q, hq, hpq⟩ := hp
    by_cases hqu : q.1 = u
    · rw [if_pos hqu] at hpq
      subst hpq
      simp
    · rw [if_neg hqu] at hpq
      subst hpq
      exact List.mem_append_left _ (hmem q hq)
  | false =>
    refine ⟨?_, ?_⟩
    · rw [mapInsert_keys_of_not_contains c hc]
      have hu : u ∉ m.map Prod.fst := (mapContains_false_iff m u).mp hc
      simp [List.nodup_append, hknd, hu]
    · intro p hp
      simp only [mapInsert, hc] at hp
      rw [if_neg (by simp)] at hp
      rcases List.mem_append.mp hp with h | h
      · exact List.mem_append_left _ (hmem p h)
      · simp only [List.mem_singleton] at h
        subst h
        simp

theorem MapWF_clear_old_step {x : String} {rest : List String}
    {m : List (String × NotificationConfig)}
    (hwf : MapWF ⟨x :: rest, m⟩) :
    MapWF (clear_notification_from_existence ⟨rest, m⟩ x) := by
  obtain ⟨hknd, hmem⟩ := hwf
  have hfifo : ∀ p : String × NotificationConfig,
      p ∈ m → p.1 ≠ x → p.1 ∈
        (if x ∈ rest then rest.erase x else rest) := by
    intro p hp hne
    have : p.1 ∈ rest := by
      rcases List.mem_cons.mp (hmem p hp) with h | h
      · exact absurd h hne
      · exact h
    by_cases hx : x ∈ rest
    · rw [if_pos hx]
      exact (List.mem_erase_of_ne hne).mpr this
    · rw [if_neg hx]
      exact this
  unfold clear_notification_from_existence
  cases hc : mapContains m x with
  | true =>
    simp only [if_pos hc]
    refine ⟨mapErase_keys_nodup hknd, ?_⟩
    intro p hp
    obtain ⟨hpm, hpne⟩ := mem_mapErase.mp hp
    exact hfifo p hpm hpne
  | false =>
    rw [if_neg (by simp [hc])]
    refine ⟨hknd, ?_⟩
    intro p hp
    have hpne : p.1 ≠ x := by
      intro h
      have hx : mapContains m x = true := by
        rw [mapContains_true_iff]
        exact List.mem_map.mpr ⟨p, hp, h⟩
      rw [hx] at hc
      simp at hc
    exact hfifo p hp hpne

theorem MapWF_clear_old_loop (fuel maxN : Nat) (st : RegistryState)
    (hwf : MapWF st) : MapWF (clear_old_loop fuel maxN st) := by
  induction fuel generalizing st with
  | zero => exact hwf
  | succ fuel ih =>
    unfold clear_old_loop
    by_cases h : maxN < st.fifo_list.length
    · simp only [h, if_true]
      cases hm : st.fifo_list with
      | nil => exact hwf
      | cons x rest =>
        apply ih
        apply MapWF_clear_old_step
        have hst : st = ⟨x :: rest, st.notification_map⟩ := by
          cases st; simp_all
        rw [← hst]
        exact hwf
    · simp only [h, if_false]
      exact hwf

theorem MapWF_create {st : ManagerState} (maxN : Nat)
    (c : NotificationConfig) (hwf : MapWF st.registry) :
    MapWF (create_notification_mx maxN st c).1.registry := by
  unfold create_notification_mx clear_old_notifications_mx
  by_cases hl : ¬ st.callback_listener_process <;>
    (simp only [hl, if_true, if_false, ite_not] <;>
     apply MapWF_clear_old_loop <;> exact MapWF_insert c.uid c hwf)

theorem map_length_le_fifo_length {st : RegistryState} (hwf : MapWF st) :
    st.notification_map.length ≤ st.fifo_list.length := by
  obtain ⟨hknd, hmem⟩ := hwf
  have hsub : (st.notification_map.map Prod.fst).toFinset ⊆
      st.fifo_list.toFinset := by
    intro a ha
    rw [List.mem_toFinset] at ha ⊢
    obtain ⟨p, hp, hpa⟩ := List.mem_map.mp ha
    exact hpa ▸ hmem p hp
  calc st.notification_map.length
      = (st.notification_map.map Prod.fst).length := by simp
    _ = (st.notification_map.map Prod.fst).toFinset.card :=
        (List.toFinset_card_of_nodup hknd).symm
    _ ≤ st.fifo_list.toFinset.card := Finset.card_le_card hsub
    _ ≤ st.fifo_list.length := st.fifo_list.toFinset_card_le

theorem create_mx_registry (maxN : Nat) (st : ManagerState)
    (c : NotificationConfig) :
    (create_notification_mx maxN st c).1.registry =
      clear_old_notifications_mx maxN
        ⟨st.registry.fifo_list ++ [c.uid],
         mapInsert st.registry.notification_map c.uid c⟩ := by
  unfold create_notification_mx
  by_cases hl : st.callback_listener_process <;> simp [hl]

theorem create_mx_fifo_length_le (maxN : Nat) (st : ManagerState)
    (c : NotificationConfig) :
    (create_notification_mx maxN st c).1.registry.fifo_list.length ≤ maxN := by
  rw [create_mx_registry]
  exact clear_old_loop_length_le _ _ _ (le_refl _)

theorem foldl_create_MapWF (configs : List NotificationConfig)
    (st : ManagerState) (hwf : MapWF st.registry) :
    MapWF ((configs.foldl (fun s c => (create_notification s c).1)
      st).registry) := by
  induction configs generalizing st with
  | nil => exact hwf
  | cons c rest ih =>
    exact ih _ (MapWF_create _MAX_NUMBER_OF_CALLBACKS_TO_TRACK c hwf)

theorem foldl_create_fifo_le (configs : List NotificationConfig)
    (st : ManagerState)
    (hle : st.registry.fifo_list.length ≤ _MAX_NUMBER_OF_CALLBACKS_TO_TRACK) :
    ((configs.foldl (fun s c => (create_notification s c).1)
      st).registry).fifo_list.length ≤ _MAX_NUMBER_OF_CALLBACKS_TO_TRACK := by
  induction configs generalizing st with
  | nil => exact hle
  | cons c rest ih =>
    exact ih _ (create_mx_fifo_length_le _MAX_NUMBER_OF_CALLBACKS_TO_TRACK _ c)

theorem create_mx_evicts_oldest (maxN : Nat) (st : ManagerState)
    (c : NotificationConfig) (o : String) (rest : List String)
    (hwf : RegistryWF st.registry)
    (hfifo : st.registry.fifo_list = o :: rest)
    (hlen : rest.length + 1 = maxN)
    (hfresh : c.uid ∉ st.registry.fifo_list) :
    (create_notification_mx maxN st c).1.registry =
      ⟨rest ++ [c.uid],
       mapErase (mapInsert st.registry.notification_map c.uid c) o⟩ := by
  have hou : o ≠ c.uid := by
    intro h
    exact hfresh (h ▸ hfifo ▸ List.mem_cons_self o rest)
  have horest : o ∉ rest := by
    have := hwf.1
    rw [hfifo] at this
    exact (List.nodup_cons.mp this).1
  have hcontains : mapContains st.registry.notification_map o = true :=
    hwf.2.2.1 o (hfifo ▸ List.mem_cons_self o rest)
  have hcontains' :
      mapContains (mapInsert st.registry.notification_map c.uid c) o = true := by
    rw [mapContains_mapInsert_ne c hou]
    exact hcontains
  rw [create_mx_registry, hfifo]
  unfold clear_old_notifications_mx
  have hflen : (((o :: rest) ++ [c.uid]) : List String).length =
      rest.length + 2 := by simp
  rw [show ((⟨(o :: rest) ++ [c.uid],
      mapInsert st.registry.notification_map c.uid c⟩ :
      RegistryState).fifo_list.length) = rest.length + 2 from hflen]
  unfold clear_old_loop
  rw [if_pos (by simp; omega)]
  have hstep : clear_notification_from_existence
      ⟨rest ++ [c.uid], mapInsert st.registry.notification_map c.uid c⟩ o =
      ⟨rest ++ [c.uid],
       mapErase (mapInsert st.registry.notification_map c.uid c) o⟩ := by
    unfold clear_notification_from_existence
    rw [if_pos hcontains']
    rw [if_neg (by simp [horest, hou])]
  simp only [List.cons_append]
  rw [hstep]
  apply clear_old_loop_of_le
  simp
  omega

theorem RegistryWF_insert (r : RegistryState) {u : String}
    (c : NotificationConfig) (hwf : RegistryWF r)
    (hfresh : u ∉ r.fifo_list) :
    RegistryWF ⟨r.fifo_list ++ [u], mapInsert r.notification_map u c⟩ := by
  obtain ⟨hnd, hknd, hls1, hls2⟩ := hwf
  have hcu : mapContains r.notification_map u = false := by
    cases h : mapContains r.notification_map u with
    | false => rfl
    | true =>
      obtain ⟨p, hp, hpk⟩ :=
        List.mem_map.mp ((mapContains_true_iff r.notification_map u).mp h)
      exact absurd (hpk ▸ hls2 p hp) hfresh
  refine ⟨by simp [List.nodup_append, hnd, hfresh], ?_, ?_, ?_⟩
  · rw [mapInsert_keys_of_not_contains c hcu]
    have hu : u ∉ r.notification_map.map Prod.fst :=
      (mapContains_false_iff r.notification_map u).mp hcu
    simp [List.nodup_append, hknd, hu]
  · intro id hid
    rcases List.mem_append.mp hid with h | h
    · have hne : id ≠ u := fun he => hfresh (he ▸ h)
      rw [mapContains_mapInsert_ne c hne]
      exact hls1 id h
    · simp only [List.mem_singleton] at h
      subst h
      exact mapContains_mapInsert_self r.notification_map id c
  · intro p hp
    simp only [mapInsert, hcu] at hp
    rw [if_neg (by simp)] at hp
    rcases List.mem_append.mp hp with h | h
    · exact List.mem_append_left _ (hls2 p h)
    · simp only [List.mem_singleton] at h
      subst h
      simp

theorem RegistryWF_create (maxN : Nat) {st : ManagerState}
    (c : NotificationConfig) (hwf : RegistryWF st.registry)
    (hfresh : c.uid ∉ st.registry.fifo_list) :
    RegistryWF (create_notification_mx maxN st c).1.registry := by
  rw [create_mx_registry]
  unfold clear_old_notifications_mx
  apply RegistryWF_clear_old_loop
  exact RegistryWF_insert st.registry c hwf hfresh

theorem clear_removes (r : RegistryState) (uid : String)
    (hnd : r.fifo_list.Nodup) :
    mapContains (clear_notification_from_existence r uid).notification_map
      uid = false ∧
    uid ∉ (clear_notification_from_existence r uid).fifo_list := by
  unfold clear_notification_from_existence
  constructor
  · cases hc : mapContains r.notification_map uid with
    | true =>
      rw [if_pos rfl]
      exact mapContains_mapErase_self r.notification_map uid
    | false =>
      rw [if_neg (by simp)]
      exact hc
  · by_cases hf : uid ∈ r.fifo_list
    · rw [if_pos hf]
      exact hnd.not_mem_erase
    · rw [if_neg hf]
      exact hf

/-! ### Evaluation lemmas for the drain thread -/

theorem drain_not_registered {st : RegistryState} {uid : String}
    (eid rt : String) (h : mapContains st.notification_map uid = false) :
    drain_handle_message st uid eid rt = Except.ok (st, []) := by
  unfold drain_handle_message
  rw [(mapLookup_eq_none_iff st.notification_map uid).mpr h]

theorem drain_action_eq {st : RegistryState} {uid : String}
    {config : NotificationConfig} {cb : Nat} (rt : String)
    (hlk : mapLookup st.notification_map uid = some config)
    (hcb : config.action_callback = some cb) :
    drain_handle_message st uid "action_button_clicked" rt =
      Except.ok (clear_notification_from_existence
        ⟨st.fifo_list, mapErase st.notification_map uid⟩ uid,
        [Invocation.action cb]) := by
  unfold drain_handle_message
  rw [hlk]
  simp [hcb]

theorem drain_action_missing {st : RegistryState} {uid : String}
    {config : NotificationConfig} (rt : String)
    (hlk : mapLookup st.notification_map uid = some config)
    (hcb : config.action_callback = none) :
    drain_handle_message st uid "action_button_clicked" rt =
      Except.error ("Notifications action button pressed without callback",
        ⟨st.fifo_list, mapErase st.notification_map uid⟩) := by
  unfold drain_handle_message
  rw [hlk]
  simp [hcb]

theorem drain_reply_eq {st : RegistryState} {uid : String}
    {config : NotificationConfig} {cb : Nat} (rt : String)
    (hlk : mapLookup st.notification_map uid = some config)
    (hcb : config.reply_callback = some cb) :
    drain_handle_message st uid "reply_button_clicked" rt =
      Except.ok (clear_notification_from_existence
        ⟨st.fifo_list, mapErase st.notification_map uid⟩ uid,
        [Invocation.reply cb rt]) := by
  unfold drain_handle_message
  rw [hlk]
  simp [hcb]

theorem drain_reply_missing {st : RegistryState} {uid : String}
    {config : NotificationConfig} (rt : String)
    (hlk : mapLookup st.notification_map uid = some config)
    (hcb : config.reply_callback = none) :
    drain_handle_message st uid "reply_button_clicked" rt =
      Except.error ("Notifications reply button pressed without callback",
        ⟨st.fifo_list, mapErase st.notification_map uid⟩) := by
  unfold drain_handle_message
  rw [hlk]
  simp [hcb]

theorem drain_unknown_event {st : RegistryState} {uid : String}
    {config : NotificationConfig} {eid : String} (rt : String)
    (hlk : mapLookup st.notification_map uid = some config)
    (h1 : eid ≠ "action_button_clicked") (h2 : eid ≠ "reply_button_clicked") :
    drain_handle_message st uid eid rt =
      Except.error ("Unknown event_id", st) := by
  unfold drain_handle_message
  simp only [hlk]
  rw [if_neg h1, if_neg h2]

theorem clear_after_pop_removes {f : List String}
    {m : List (String × NotificationConfig)} (uid : String)
    (hnd : f.Nodup) :
    mapContains (clear_notification_from_existence
      ⟨f, mapErase m uid⟩ uid).notification_map uid = false ∧
    uid ∉ (clear_notification_from_existence
      ⟨f, mapErase m uid⟩ uid).fifo_list := by
  unfold clear_notification_from_existence
  rw [if_neg (by simp [mapContains_mapErase_self])]
  constructor
  · exact mapContains_mapErase_self m uid
  · by_cases hf : uid ∈ f
    · rw [if_pos hf]
      exact hnd.not_mem_erase
    · rw [if_neg hf]
      exact hf

theorem drain_pop_clear_eq {r : RegistryState} {uid : String}
    (hin : uid ∈ r.fifo_list) :
    clear_notification_from_existence
      ⟨r.fifo_list, mapErase r.notification_map uid⟩ uid =
      ⟨r.fifo_list.erase uid, mapErase r.notification_map uid⟩ := by
  unfold clear_notification_from_existence
  rw [if_neg (by simp [mapContains_mapErase_self]), if_pos hin]

theorem mem_fifo_of_lookup_some {r : RegistryState} {uid : String}
    {config : NotificationConfig} (hwf : RegistryWF r)
    (hlk : mapLookup r.notification_map uid = some config) :
    uid ∈ r.fifo_list := by
  have hc := mapContains_of_lookup_some hlk
  obtain ⟨p, hp, hpk⟩ :=
    List.mem_map.mp ((mapContains_true_iff r.notification_map uid).mp hc)
  exact hpk ▸ hwf.2.2.2 p hp

theorem RegistryWF_drain_ok (r : RegistryState) (uid eid rt : String)
    (hwf : RegistryWF r) :
    ∀ st' invs, drain_handle_message r uid eid rt = Except.ok (st', invs) →
      RegistryWF st' := by
  intro st' invs h
  cases hlk : mapLookup r.notification_map uid with
  | none =>
    have hc : mapContains r.notification_map uid = false :=
      (mapLookup_eq_none_iff r.notification_map uid).mp hlk
    rw [drain_not_registered eid rt hc] at h
    simp only [Except.ok.injEq, Prod.mk.injEq] at h
    obtain ⟨h1, _⟩ := h
    subst h1
    exact hwf
  | some config =>
    have hin : uid ∈ r.fifo_list := mem_fifo_of_lookup_some hwf hlk
    by_cases ha : eid = "action_button_clicked"
    · subst ha
      cases hcb : config.action_callback with
      | none =>
        rw [drain_action_missing rt hlk hcb] at h
        exact Except.noConfusion h
      | some cb =>
        rw [drain_action_eq rt hlk hcb] at h
        simp only [Except.ok.injEq, Prod.mk.injEq] at h
        obtain ⟨h1, _⟩ := h
        subst h1
        rw [drain_pop_clear_eq hin]
        exact RegistryWF_erase_both hwf
    · by_cases hb : eid = "reply_button_clicked"
      · subst hb
        cases hcb : config.reply_callback with
        | none =>
          rw [drain_reply_missing rt hlk hcb] at h
          exact Except.noConfusion h
        | some cb =>
          rw [drain_reply_eq rt hlk hcb] at h
          simp only [Except.ok.injEq, Prod.mk.injEq] at h
          obtain ⟨h1, _⟩ := h
          subst h1
          rw [drain_pop_clear_eq hin]
          exact RegistryWF_erase_both hwf
      · rw [drain_unknown_event rt hlk ha hb] at h
        exact Except.noConfusion h

/-! ### The claims -/

/-- C1: the claim states that a `create_notification` call with a
configuration carrying no action-callback and no reply-callback leaves the
Registry unchanged.  The code contradicts this (and its own comments, which
say `_NOTIFICATION_MAP` should only contain notifications with a callback):
evaluating `create_notification` on the fresh manager with a callback-free
configuration inserts the identifier into both `_FIFO_LIST` and
`_NOTIFICATION_MAP`. -/
theorem C1_no_callback_still_registered :
    (create_notification initialManagerState
        ⟨"uid-1", "Title", none, none⟩).1.registry =
      ⟨["uid-1"], [("uid-1", ⟨"uid-1", "Title", none, none⟩)]⟩ ∧
    (⟨"uid-1", "Title", none, none⟩ : NotificationConfig).action_callback
      = none ∧
    (⟨"uid-1", "Title", none, none⟩ : NotificationConfig).reply_callback
      = none :=
  ⟨rfl, rfl, rfl⟩

/-- C9: `cleanup` is idempotent: a second `cleanup` performs no teardown
action (so nothing is closed, killed or joined twice) and does not change
the state; after any `cleanup` both registry structures are empty (size 0);
and `cleanup` on the never-started manager performs no teardown action
either. -/
theorem C9_cleanup_idempotent (st : ManagerState) :
    (cleanup (cleanup st).1).2 = [] ∧
    (cleanup (cleanup st).1).1 = (cleanup st).1 ∧
    (cleanup st).1.registry.fifo_list = [] ∧
    (cleanup st).1.registry.notification_map = [] ∧
    get_active_running_notifications (cleanup st).1.registry = 0 ∧
    cleanup initialManagerState = (initialManagerState, []) :=
  ⟨rfl, rfl, rfl, rfl, rfl, rfl⟩

/-- C10: the listener's forwarding loop triggers the backend display call
exactly on display requests and the backend cancel call exactly on cancel
requests; any other channel message triggers no backend operation and the
loop carries on with the rest of the stream. -/
theorem C10_unknown_messages_ignored (payload : String)
    (config : JSONNotificationConfig) (uid : String)
    (msg : ChannelMessage) (rest : List ChannelMessage) :
    notificationProcess_handle_message (ChannelMessage.other payload) = [] ∧
    notificationProcess_handle_message (ChannelMessage.displayRequest config)
      = [BackendOp.send config] ∧
    notificationProcess_handle_message (ChannelMessage.cancelRequest uid)
      = [BackendOp.cancel uid] ∧
    notificationProcess_poll (ChannelMessage.other payload :: rest)
      = notificationProcess_poll rest ∧
    (∀ c', BackendOp.send c' ∈ notificationProcess_handle_message msg →
      msg = ChannelMessage.displayRequest c') ∧
    (∀ u', BackendOp.cancel u' ∈ notificationProcess_handle_message msg →
      msg = ChannelMessage.cancelRequest u') := by
  refine ⟨rfl, rfl, rfl, rfl, ?_, ?_⟩
  · intro c' hc'
    cases msg <;> simp [notificationProcess_handle_message,
      isJSONNotificationConfig, isJSONCancelRequest] at hc' <;> simp [hc']
  · intro u' hu'
    cases msg <;> simp [notificationProcess_handle_message,
      isJSONNotificationConfig, isJSONCancelRequest] at hu' <;> simp [hu']

theorem C10_witness :
    notificationProcess_handle_message (ChannelMessage.other "junk") = [] ∧
    notificationProcess_handle_message
        (ChannelMessage.displayRequest ⟨"u"⟩) = [BackendOp.send ⟨"u"⟩] ∧
    notificationProcess_handle_message (ChannelMessage.cancelRequest "u")
      = [BackendOp.cancel "u"] ∧
    notificationProcess_poll
        (ChannelMessage.other "junk" :: [ChannelMessage.cancelRequest "u"])
      = notificationProcess_poll [ChannelMessage.cancelRequest "u"] ∧
    (∀ c', BackendOp.send c' ∈
        notificationProcess_handle_message (ChannelMessage.other "junk") →
      ChannelMessage.other "junk" = ChannelMessage.displayRequest c') ∧
    (∀ u', BackendOp.cancel u' ∈
        notificationProcess_handle_message (ChannelMessage.other "junk") →
      ChannelMessage.other "junk" = ChannelMessage.cancelRequest u') :=
  C10_unknown_messages_ignored "junk" ⟨"u"⟩ "u"
    (ChannelMessage.other "junk") [ChannelMessage.cancelRequest "u"]

/-- C7 counterexample: the claim states that the activation handler is
invoked for every user interaction whose click-type is not a plain dismiss
(activation type 0); but a click on the notification body (activation
type 1, which the source comments call a click on the notification, not on
a button) falls into a `pass` and invokes no handler. -/
theorem C7_body_click_not_reported :
    ¬ (∀ (identifier response : String) (activation_type : Nat),
        activation_type ≠ 0 →
        userNotificationCenter_didActivateNotification identifier response
          activation_type ≠ []) := by
  intro h
  exact h "n1" "" 1 one_ne_zero rfl

/-- C7 amended: the event loop reports only action-button interactions
(activation type 2, as an action_button_clicked event with empty reply
text) and reply-button interactions (activation type 3, as a
reply_button_clicked event carrying the response); a plain click on the
notification body (type 1) and every other activation type invoke no
handler. -/
theorem C7_only_button_interactions_reported (identifier response : String) :
    userNotificationCenter_didActivateNotification identifier response 1
      = [] ∧
    userNotificationCenter_didActivateNotification identifier response 2
      = [(identifier, "action_button_clicked", "")] ∧
    userNotificationCenter_didActivateNotification identifier response 3
      = [(identifier, "reply_button_clicked", response)] ∧
    ∀ t : Nat, t ≠ 2 → t ≠ 3 →
      userNotificationCenter_didActivateNotification identifier response t
        = [] := by
  refine ⟨rfl, rfl, rfl, ?_⟩
  intro t h2 h3
  unfold userNotificationCenter_didActivateNotification
  by_cases h1 : t = 1 <;> simp [h1, h2, h3]

theorem C7_witness :
    userNotificationCenter_didActivateNotification "n1" "hello" 1 = [] ∧
    userNotificationCenter_didActivateNotification "n1" "hello" 2
      = [("n1", "action_button_clicked", "")] ∧
    userNotificationCenter_didActivateNotification "n1" "hello" 3
      = [("n1", "reply_button_clicked", "hello")] ∧
    ∀ t : Nat, t ≠ 2 → t ≠ 3 →
      userNotificationCenter_didActivateNotification "n1" "hello" t = [] :=
  C7_only_button_interactions_reported "n1" "hello"

/-- C8: a reply_button_clicked event for a registered identifier whose
configuration carries a reply-callback invokes that reply-callback with
exactly the reply text delivered by the event, unchanged. -/
theorem C8_reply_text_unchanged (st : RegistryState) (uid rt : String)
    (config : NotificationConfig) (cb : Nat)
    (hlk : mapLookup st.notification_map uid = some config)
    (hcb : config.reply_callback = some cb) :
    ∃ st', drain_handle_message st uid "reply_button_clicked" rt =
      Except.ok (st', [Invocation.reply cb rt]) :=
  ⟨_, drain_reply_eq rt hlk hcb⟩

theorem C8_witness :
    ∃ st', drain_handle_message
        ⟨["a"], [("a", ⟨"a", "T", none, some 7⟩)]⟩ "a"
        "reply_button_clicked" "the reply text" =
      Except.ok (st', [Invocation.reply 7 "the reply text"]) :=
  C8_reply_text_unchanged ⟨["a"], [("a", ⟨"a", "T", none, some 7⟩)]⟩
    "a" "the reply text" ⟨"a", "T", none, some 7⟩ 7 rfl rfl

/-- C5: an action_button_clicked event for an identifier registered with an
action-callback invokes exactly that callback exactly once, then removes the
identifier from both registry structures; handling the identical event a
second time invokes no callback and raises no error. -/
theorem C5_action_callback_exactly_once (st : RegistryState)
    (uid rt : String) (config : NotificationConfig) (cb : Nat)
    (hnd : st.fifo_list.Nodup)
    (hlk : mapLookup st.notification_map uid = some config)
    (hcb : config.action_callback = some cb) :
    ∃ st' : RegistryState,
      drain_handle_message st uid "action_button_clicked" rt =
        Except.ok (st', [Invocation.action cb]) ∧
      mapContains st'.notification_map uid = false ∧
      uid ∉ st'.fifo_list ∧
      drain_handle_message st' uid "action_button_clicked" rt =
        Except.ok (st', []) := by
  obtain ⟨h1, h2⟩ := clear_after_pop_removes
    (f := st.fifo_list) (m := st.notification_map) uid hnd
  exact ⟨_, drain_action_eq rt hlk hcb, h1, h2,
    drain_not_registered "action_button_clicked" rt h1⟩

theorem C5_witness :
    ∃ st' : RegistryState,
      drain_handle_message ⟨["a"], [("a", ⟨"a", "T", some 7, none⟩)]⟩ "a"
          "action_button_clicked" "" =
        Except.ok (st', [Invocation.action 7]) ∧
      mapContains st'.notification_map "a" = false ∧
      "a" ∉ st'.fifo_list ∧
      drain_handle_message st' "a" "action_button_clicked" "" =
        Except.ok (st', []) :=
  C5_action_callback_exactly_once
    ⟨["a"], [("a", ⟨"a", "T", some 7, none⟩)]⟩ "a" ""
    ⟨"a", "T", some 7, none⟩ 7 (by decide) rfl rfl

/-- C6: handling an event raises a hard error if and only if the event's
identifier is registered in the map and either its kind is
action_button_clicked/reply_button_clicked with the matching callback
absent, or its kind is outside the known set; an event for an unregistered
identifier is ignored: no error, no invocation, registry unchanged. -/
theorem C6_error_characterization (st : RegistryState)
    (uid eid rt : String) :
    (mapContains st.notification_map uid = false →
      drain_handle_message st uid eid rt = Except.ok (st, [])) ∧
    (∀ config, mapLookup st.notification_map uid = some config →
      (isErrorResult (drain_handle_message st uid eid rt) = true ↔
        ((eid = "action_button_clicked" ∧ config.action_callback = none) ∨
         (eid = "reply_button_clicked" ∧ config.reply_callback = none) ∨
         (eid ≠ "action_button_clicked" ∧
          eid ≠ "reply_button_clicked")))) := by
  constructor
  · intro hc
    exact drain_not_registered eid rt hc
  · intro config hlk
    by_cases ha : eid = "action_button_clicked"
    · subst ha
      cases hcb : config.action_callback with
      | none =>
        rw [drain_action_missing rt hlk hcb]
        simp [isErrorResult]
      | some cb =>
        rw [drain_action_eq rt hlk hcb]
        simp [isErrorResult, hcb]
    · by_cases hb : eid = "reply_button_clicked"
      · subst hb
        cases hcb : config.reply_callback with
        | none =>
          rw [drain_reply_missing rt hlk hcb]
          simp [isErrorResult]
        | some cb =>
          rw [drain_reply_eq rt hlk hcb]
          simp [isErrorResult, hcb]
      · rw [drain_unknown_event rt hlk ha hb]
        simp [isErrorResult, ha, hb]

theorem C6_witness :
    (mapContains
        (⟨["a"], [("a", ⟨"a", "T", none, none⟩)]⟩ :
          RegistryState).notification_map "b" = false →
      drain_handle_message ⟨["a"], [("a", ⟨"a", "T", none, none⟩)]⟩ "b"
          "action_button_clicked" "" =
        Except.ok (⟨["a"], [("a", ⟨"a", "T", none, none⟩)]⟩, [])) ∧
    (∀ config,
      mapLookup (⟨["a"], [("a", ⟨"a", "T", none, none⟩)]⟩ :
        RegistryState).notification_map "b" = some config →
      (isErrorResult (drain_handle_message
          ⟨["a"], [("a", ⟨"a", "T", none, none⟩)]⟩ "b"
          "action_button_clicked" "") = true ↔
        (("action_button_clicked" = "action_button_clicked" ∧
          config.action_callback = none) ∨
         ("action_button_clicked" = "reply_button_clicked" ∧
          config.reply_callback = none) ∨
         ("action_button_clicked" ≠ "action_button_clicked" ∧
          "action_button_clicked" ≠ "reply_button_clicked")))) :=
  C6_error_characterization ⟨["a"], [("a", ⟨"a", "T", none, none⟩)]⟩ "b"
    "action_button_clicked" ""

/-- C2: every `create_notification` submission returns a handle targeting
that notification's identifier; while the channel is open, the handle's
cancel() sends a CancelRequest for the identifier over the channel (which
the listener process forwards to the backend cancel operation) and removes
the identifier's entry from both registry structures; once the channel is
closed, cancel() is a no-op rather than an error.  The handle itself is
modelled from the spec (the client wrapper is not under `src/`); the
manager, registry and listener transitions are the embedded source. -/
theorem C2_cancel_handle_contract (st : ManagerState)
    (config : NotificationConfig) (stc : ManagerState)
    (hwf : RegistryWF st.registry)
    (hfresh : config.uid ∉ st.registry.fifo_list)
    (hstart : st.callback_listener_process = true →
      st.parent_pipe_end = true) :
    (client_create_notification st config).2.2.uid = config.uid ∧
    (client_create_notification st config).1.parent_pipe_end = true ∧
    (cancelHandle_cancel (client_create_notification st config).2.2
        (client_create_notification st config).1).2 =
      [ChannelMessage.cancelRequest config.uid] ∧
    mapContains (cancelHandle_cancel
        (client_create_notification st config).2.2
        (client_create_notification st config).1).1.registry.notification_map
      config.uid = false ∧
    config.uid ∉ (cancelHandle_cancel
        (client_create_notification st config).2.2
        (client_create_notification st config).1).1.registry.fifo_list ∧
    notificationProcess_handle_message
        (ChannelMessage.cancelRequest config.uid) =
      [BackendOp.cancel config.uid] ∧
    (stc.parent_pipe_end = false →
      cancelHandle_cancel (client_create_notification st config).2.2 stc =
        (stc, [])) := by
  have hreg : RegistryWF (client_create_notification st config).1.registry :=
    RegistryWF_create _MAX_NUMBER_OF_CALLBACKS_TO_TRACK config hwf hfresh
  have hnd : (client_create_notification
      st config).1.registry.fifo_list.Nodup := hreg.1
  have hpipe : (client_create_notification st config).1.parent_pipe_end
      = true := by
    show (create_notification_mx _MAX_NUMBER_OF_CALLBACKS_TO_TRACK
      st config).1.parent_pipe_end = true
    unfold create_notification_mx
    by_cases hl : st.callback_listener_process
    · simp only [hl, not_true_eq_false, if_false, ite_false]
      exact hstart hl
    · simp [hl]
  obtain ⟨hc, hf⟩ := clear_removes
    (client_create_notification st config).1.registry config.uid hnd
  refine ⟨rfl, hpipe, ?_, ?_, ?_, rfl, ?_⟩
  · unfold cancelHandle_cancel
    rw [if_pos hpipe]
    rfl
  · unfold cancelHandle_cancel
    rw [if_pos hpipe]
    exact hc
  · unfold cancelHandle_cancel
    rw [if_pos hpipe]
    exact hf
  · intro h
    unfold cancelHandle_cancel
    rw [if_neg (by simp [h])]

theorem C2_witness :
    ((client_create_notification initialManagerState
        ⟨"u", "T", some 1, none⟩).2.2.uid = "u") ∧
    (client_create_notification initialManagerState
        ⟨"u", "T", some 1, none⟩).1.parent_pipe_end = true ∧
    (cancelHandle_cancel (client_create_notification initialManagerState
          ⟨"u", "T", some 1, none⟩).2.2
        (client_create_notification initialManagerState
          ⟨"u", "T", some 1, none⟩).1).2 =
      [ChannelMessage.cancelRequest "u"] ∧
    mapContains (cancelHandle_cancel
        (client_create_notification initialManagerState
          ⟨"u", "T", some 1, none⟩).2.2
        (client_create_notification initialManagerState
          ⟨"u", "T", some 1, none⟩).1).1.registry.notification_map
      "u" = false ∧
    "u" ∉ (cancelHandle_cancel
        (client_create_notification initialManagerState
          ⟨"u", "T", some 1, none⟩).2.2
        (client_create_notification initialManagerState
          ⟨"u", "T", some 1, none⟩).1).1.registry.fifo_list ∧
    notificationProcess_handle_message (ChannelMessage.cancelRequest "u") =
      [BackendOp.cancel "u"] ∧
    (initialManagerState.parent_pipe_end = false →
      cancelHandle_cancel (client_create_notification initialManagerState
          ⟨"u", "T", some 1, none⟩).2.2 initialManagerState =
        (initialManagerState, [])) :=
  C2_cancel_handle_contract initialManagerState ⟨"u", "T", some 1, none⟩
    initialManagerState (by decide) (by decide) (by decide)

/-- C3 counterexample: the claim states the two registry structures stay in
lock-step after every operation including the paths that raise errors; but
on an action_button_clicked event for a registered identifier whose
configuration has no action-callback, `drain_queue` pops the map entry and
then raises before `clear_notification_from_existence` runs, leaving the
identifier in `_FIFO_LIST` with no `_NOTIFICATION_MAP` entry. -/
theorem C3_error_path_breaks_lockstep :
    drain_handle_message ⟨["a"], [("a", ⟨"a", "T", none, none⟩)]⟩ "a"
        "action_button_clicked" "" =
      Except.error ("Notifications action button pressed without callback",
        ⟨["a"], []⟩) ∧
    LockStep ⟨["a"], [("a", ⟨"a", "T", none, none⟩)]⟩ ∧
    ¬ LockStep ⟨["a"], []⟩ :=
  ⟨rfl, by decide, by decide⟩

/-- C3 amended: the registry's two structures stay in lock-step (with no
duplicate identifiers) after insertion of a fresh identifier, after
eviction, after removal, and after every drain-thread event handling that
completes without raising; on the missing-callback error paths the map
entry is popped while the FIFO entry remains, so lock-step is not restored
there. -/
theorem C3_lockstep_outside_error_paths (st : ManagerState)
    (r : RegistryState) (c : NotificationConfig) (uid eid rt : String)
    (hwfm : RegistryWF st.registry) (hwf : RegistryWF r)
    (hfresh : c.uid ∉ st.registry.fifo_list) :
    RegistryWF (create_notification st c).1.registry ∧
    RegistryWF (clear_notification_from_existence r uid) ∧
    RegistryWF (clear_old_notifications r) ∧
    ∀ st' invs, drain_handle_message r uid eid rt = Except.ok (st', invs) →
      RegistryWF st' := by
  refine ⟨RegistryWF_create _MAX_NUMBER_OF_CALLBACKS_TO_TRACK c hwfm hfresh,
    RegistryWF_clear uid hwf, ?_, RegistryWF_drain_ok r uid eid rt hwf⟩
  unfold clear_old_notifications clear_old_notifications_mx
  exact RegistryWF_clear_old_loop _ _ _ hwf

theorem C3_witness :
    RegistryWF (create_notification
      ⟨true, true, true, true, ⟨["x"], [("x", ⟨"x", "T", some 1, none⟩)]⟩⟩
      ⟨"y", "S", none, some 2⟩).1.registry ∧
    RegistryWF (clear_notification_from_existence
      ⟨["x"], [("x", ⟨"x", "T", some 1, none⟩)]⟩ "x") ∧
    RegistryWF (clear_old_notifications
      ⟨["x"], [("x", ⟨"x", "T", some 1, none⟩)]⟩) ∧
    ∀ st' invs, drain_handle_message
        ⟨["x"], [("x", ⟨"x", "T", some 1, none⟩)]⟩ "x"
        "action_button_clicked" "" = Except.ok (st', invs) →
      RegistryWF st' :=
  C3_lockstep_outside_error_paths
    ⟨true, true, true, true, ⟨["x"], [("x", ⟨"x", "T", some 1, none⟩)]⟩⟩
    ⟨["x"], [("x", ⟨"x", "T", some 1, none⟩)]⟩
    ⟨"y", "S", none, some 2⟩ "x" "action_button_clicked" ""
    (by decide) (by decide) (by decide)

/-- C4: across any sequence of `create_notification` calls the registry
never exceeds the capacity bound after each call completes (both FIFO
length and map size stay at most `_MAX_NUMBER_OF_CALLBACKS_TO_TRACK`,
1000); and (stated for any capacity, of which the source constant is the
instance used by `create_notification`) when an insertion would exceed a
full registry, the oldest-inserted identifier — the FIFO head — is evicted:
it disappears from both structures and a later event for it is ignored
without any callback invocation. -/
theorem C4_capacity_and_fifo_eviction (configs : List NotificationConfig)
    (n maxN : Nat) (st : ManagerState) (c : NotificationConfig)
    (o : String) (rest : List String)
    (hwf : RegistryWF st.registry)
    (hfifo : st.registry.fifo_list = o :: rest)
    (hlen : rest.length + 1 = maxN)
    (hfresh : c.uid ∉ st.registry.fifo_list) :
    (run_create_notifications
        (configs.take n)).registry.fifo_list.length ≤
      _MAX_NUMBER_OF_CALLBACKS_TO_TRACK ∧
    get_active_running_notifications
        (run_create_notifications (configs.take n)).registry ≤
      _MAX_NUMBER_OF_CALLBACKS_TO_TRACK ∧
    (create_notification_mx maxN st c).1.registry.fifo_list =
      rest ++ [c.uid] ∧
    mapContains
      (create_notification_mx maxN st c).1.registry.notification_map o
      = false ∧
    o ∉ (create_notification_mx maxN st c).1.registry.fifo_list ∧
    ∀ eid rt, drain_handle_message
        (create_notification_mx maxN st c).1.registry o eid rt =
      Except.ok ((create_notification_mx maxN st c).1.registry, []) := by
  have hrun := create_mx_evicts_oldest maxN st c o rest hwf hfifo hlen hfresh
  have horest : o ∉ rest := by
    have hx := hwf.1
    rw [hfifo] at hx
    exact (List.nodup_cons.mp hx).1
  have hou : o ≠ c.uid := fun h =>
    hfresh (h ▸ hfifo ▸ List.mem_cons_self o rest)
  have hlenle : (run_create_notifications
      (configs.take n)).registry.fifo_list.length ≤
      _MAX_NUMBER_OF_CALLBACKS_TO_TRACK := by
    unfold run_create_notifications
    apply foldl_create_fifo_le
    simp [initialManagerState]
  have hmapwf : MapWF (run_create_notifications (configs.take n)).registry := by
    unfold run_create_notifications
    apply foldl_create_MapWF
    exact ⟨List.nodup_nil, by simp [initialManagerState]⟩
  refine ⟨hlenle, le_trans (map_length_le_fifo_length hmapwf) hlenle,
    ?_, ?_, ?_, ?_⟩
  · rw [hrun]
  · rw [hrun]
    exact mapContains_mapErase_self _ o
  · rw [hrun]
    simp [horest, hou]
  · intro eid rt
    apply drain_not_registered
    rw [hrun]
    exact mapContains_mapErase_self _ o

theorem C4_witness :
    (run_create_notifications
        (([⟨"a", "A", some 1, none⟩] :
          List NotificationConfig).take 1)).registry.fifo_list.length ≤
      _MAX_NUMBER_OF_CALLBACKS_TO_TRACK ∧
    get_active_running_notifications
        (run_create_notifications
          (([⟨"a", "A", some 1, none⟩] :
            List NotificationConfig).take 1)).registry ≤
      _MAX_NUMBER_OF_CALLBACKS_TO_TRACK ∧
    (create_notification_mx 2
        ⟨true, true, true, true,
         ⟨["a", "b"], [("a", ⟨"a", "A", some 1, none⟩),
                       ("b", ⟨"b", "B", some 2, none⟩)]⟩⟩
        ⟨"c", "C", some 3, none⟩).1.registry.fifo_list = ["b"] ++ ["c"] ∧
    mapContains (create_notification_mx 2
        ⟨true, true, true, true,
         ⟨["a", "b"], [("a", ⟨"a", "A", some 1, none⟩),
                       ("b", ⟨"b", "B", some 2, none⟩)]⟩⟩
        ⟨"c", "C", some 3, none⟩).1.registry.notification_map "a" = false ∧
    "a" ∉ (create_notification_mx 2
        ⟨true, true, true, true,
         ⟨["a", "b"], [("a", ⟨"a", "A", some 1, none⟩),
                       ("b", ⟨"b", "B", some 2, none⟩)]⟩⟩
        ⟨"c", "C", some 3, none⟩).1.registry.fifo_list ∧
    ∀ eid rt, drain_handle_message (create_notification_mx 2
        ⟨true, true, true, true,
         ⟨["a", "b"], [("a", ⟨"a", "A", some 1, none⟩),
                       ("b", ⟨"b", "B", some 2, none⟩)]⟩⟩
        ⟨"c", "C", some 3, none⟩).1.registry "a" eid rt =
      Except.ok ((create_notification_mx 2
        ⟨true, true, true, true,
         ⟨["a", "b"], [("a", ⟨"a", "A", some 1, none⟩),
                       ("b", ⟨"b", "B", some 2, none⟩)]⟩⟩
        ⟨"c", "C", some 3, none⟩).1.registry, []) :=
  C4_capacity_and_fifo_eviction [⟨"a", "A", some 1, none⟩] 1 2
    ⟨true, true, true, true,
     ⟨["a", "b"], [("a", ⟨"a", "A", some 1, none⟩),
                   ("b", ⟨"b", "B", some 2, none⟩)]⟩⟩
    ⟨"c", "C", some 3, none⟩ "a" ["b"]
    (by decide) rfl rfl (by decide)

end MacNotifications
